import Mathlib

/-!
# goiptables: argument rendering, process runner and output scans

A shallow embedding of `cmd.go`, `table.go` and `chain.go`.

Conventions of the embedding:

* Go `string` and `[]byte` values are Lean `String`s (the engine's output is
  taken to be text); a Go slice is a `List`, the nil slice being `[]`.
* A Go `error` is identified with its message (`GoError`); the nil error is
  `none`.  A function returning `(T, error)` returns a pair `T × Option GoError`.
* The operating system is a parameter (`Env`): what `exec.LookPath` answers and
  how a child process started with a given path and argument vector behaves.
  Every function that may reach the operating system also returns the list of
  `Event`s it caused, in order.
* A run-time panic is an explicit outcome (`Outcome.panicked`).
-/

set_option autoImplicit false

namespace goiptables

/-! ## Go library functions used by the sources -/

/-- Go error value, identified with the text returned by its `Error()` method. -/
structure GoError where
  msg : String
deriving DecidableEq, Repr

/-- Code points for which `unicode.IsSpace` holds: the six ASCII space
characters, U+0085, U+00A0 and the characters with the White_Space property. -/
def isSpace (c : Char) : Bool :=
  let n := c.toNat
  n == 0x20 || (0x09 ≤ n && n ≤ 0x0D) || n == 0x85 || n == 0xA0 || n == 0x1680 ||
    (0x2000 ≤ n && n ≤ 0x200A) || n == 0x2028 || n == 0x2029 || n == 0x202F ||
    n == 0x205F || n == 0x3000

/-- Scan of `strings.Fields`: `cur` is the field being read. -/
def Fields.scan : List Char → List Char → List String
  | [], cur => if cur.isEmpty then [] else [String.mk cur]
  | c :: cs, cur =>
    if isSpace c then
      if cur.isEmpty then Fields.scan cs [] else String.mk cur :: Fields.scan cs []
    else Fields.scan cs (cur ++ [c])

/-- Go `strings.Fields(s)`: the maximal runs of non-space characters of `s`. -/
def Fields (s : String) : List String :=
  Fields.scan s.data []

/-- Scan of `Split` for a separator of one character: `cur` is the piece being read. -/
def Split.scan (sep : Char) : List Char → List Char → List String
  | [], cur => [String.mk cur]
  | c :: cs, cur =>
    if c = sep then String.mk cur :: Split.scan sep cs [] else Split.scan sep cs (cur ++ [c])

/-- Go `strings.Split(s, sep)` and `bytes.Split(s, sep)` for a separator of one
character, the only use in the sources (`"\n"`): the pieces of `s` between the
occurrences of `sep`, one more than there are occurrences. -/
def Split (s : String) (sep : Char) : List String :=
  Split.scan sep s.data []

/-- Go `strings.HasPrefix(s, p)`. -/
def HasPrefix (s p : String) : Bool :=
  p.data.isPrefixOf s.data

/-! ## cmd.go -/

/-- Go `type command string`. -/
abbrev command := String

/-- One observable interaction with the operating system. -/
inductive Event where
  | lookPath (file : String)
  | start (path : String) (args : List String)
  | wait
deriving DecidableEq, Repr

/-- Behaviour of one child process: the results of `cmd.Start()` and
`cmd.Wait()` and what it wrote to the two buffers. -/
structure Proc where
  start : Option GoError
  wait : Option GoError
  stdout : String
  stderr : String
deriving DecidableEq, Repr

/-- Modelled from the spec: the declaration of `Rule` is not part of the three
source files; the spec describes it as match-criteria tokens, a target action
and an optional rule number in string form. The sources read and write only
`RuleNumber`. -/
structure Rule where
  Matches : List String
  Target : String
  RuleNumber : String
deriving DecidableEq, Repr

/-- Modelled from the spec: the declaration of `Policy` is not part of the three
source files; the spec describes it as a (chain, target) pair. The sources
read only `Target`. -/
structure Policy where
  Chain : String
  Target : String
deriving DecidableEq, Repr

/-- Everything the three source files take from outside: the constant
`iptablesCommand`, the methods `Rule.Marshal` and `Unmarshal` (declared in
files that are not part of the sources), and the operating system. -/
structure Env where
  iptablesCommand : String
  LookPath : String → String × Option GoError
  run : String → List String → Proc
  Marshal : Rule → List String × Option GoError
  Unmarshal : String → Rule × Option GoError

/-- Function `runCommand` of cmd.go. -/
def runCommand (env : Env) (cmd : command) (obj : String) (args : List String) :
    (String × Option GoError) × List Event :=
  match env.LookPath env.iptablesCommand with
  | (_, some err) => (("", some err), [Event.lookPath env.iptablesCommand])
  | (path, none) =>
    let cmdArgs := [path, cmd, obj] ++ args
    let p := env.run path cmdArgs
    match p.start with
    | some err =>
      (("", some err), [Event.lookPath env.iptablesCommand, Event.start path cmdArgs])
    | none =>
      match p.wait with
      | some err =>
        (("", some ⟨err.msg ++ ": " ++ p.stderr⟩),
          [Event.lookPath env.iptablesCommand, Event.start path cmdArgs, Event.wait])
      | none =>
        if p.stderr.length ≠ 0 then
          (("", some ⟨p.stderr⟩),
            [Event.lookPath env.iptablesCommand, Event.start path cmdArgs, Event.wait])
        else
          ((p.stdout, none),
            [Event.lookPath env.iptablesCommand, Event.start path cmdArgs, Event.wait])

/-! ## table.go -/

/-- Go `type Table string`. -/
abbrev Table := String

/-- Go `type Option string` of chain.go. -/
abbrev ChainOption := String

/-- Struct `Chain` of chain.go. -/
structure Chain where
  Name : String
  Table : Table
  Options : List ChainOption
  Target : String
deriving DecidableEq, Repr

def listChainsCommand : command := "-t"

/-- Result of a call that may panic instead of returning. -/
inductive Outcome (α : Type) where
  | returned (a : α)
  | panicked (what : String)
deriving DecidableEq, Repr

/-- The `for _, val := range rules` loop of `ListChains`; `chains` is the slice
built so far. Indexing `strings.Fields(val)[1]` panics when there are fewer
than two fields. -/
def ListChains.loop (t : Table) : List String → List Chain → Outcome (List Chain)
  | [], chains => Outcome.returned chains
  | val :: rest, chains =>
    if HasPrefix val "-P" || HasPrefix val "-N" then
      match (Fields val)[1]? with
      | some name =>
        ListChains.loop t rest (chains ++ [{ Name := name, Table := t, Options := [], Target := "" }])
      | none => Outcome.panicked "index out of range [1]"
    else Outcome.returned chains

/-- Method `Table.ListChains` of table.go. -/
def Table.ListChains (env : Env) (t : Table) :
    Outcome (List Chain × Option GoError) × List Event :=
  match runCommand env listChainsCommand t ["-S"] with
  | ((_, some err), tr) => (Outcome.returned ([], some err), tr)
  | ((out, none), tr) =>
    let rules := Split out '\n'
    let rules := if rules.getLast? = some "" then rules.dropLast else rules
    match ListChains.loop t rules [] with
    | Outcome.returned chains => (Outcome.returned (chains, none), tr)
    | Outcome.panicked what => (Outcome.panicked what, tr)

/-! ## chain.go -/

def appendCommand : command := "-A"
def checkCommand : command := "-C"
def deleteCommand : command := "-D"
def insertCommand : command := "-I"
def replaceCommand : command := "-R"
def listCommand : command := "-L"
def listRulesCommand : command := "-S"
def flushCommand : command := "-F"
def zeroCommand : command := "-Z"
def newChainCommand : command := "-N"
def deleteChainCommand : command := "-X"
def policyCommand : command := "-P"
def renameChainCommand : command := "-E"

/-- Method `Chain.Append` of chain.go. -/
def Chain.Append (env : Env) (c : Chain) (rule : Rule) : Option GoError × List Event :=
  match env.Marshal rule with
  | (_, some err) => (some err, [])
  | (args, none) =>
    let r := runCommand env appendCommand c.Name args
    (r.1.2, r.2)

/-- Method `Chain.Check` of chain.go. -/
def Chain.Check (env : Env) (c : Chain) (rule : Rule) : Option GoError × List Event :=
  match env.Marshal rule with
  | (_, some err) => (some err, [])
  | (args, none) =>
    let r := runCommand env checkCommand c.Name args
    (r.1.2, r.2)

/-- Method `Chain.Delete` of chain.go. -/
def Chain.Delete (env : Env) (c : Chain) (rule : Rule) : Option GoError × List Event :=
  match env.Marshal rule with
  | (_, some err) => (some err, [])
  | (args, none) =>
    let r := runCommand env deleteCommand c.Name args
    (r.1.2, r.2)

/-- Method `Chain.DeleteByRuleNum` of chain.go. -/
def Chain.DeleteByRuleNum (env : Env) (c : Chain) (rule : Rule) : Option GoError × List Event :=
  let r := runCommand env deleteCommand c.Name [rule.RuleNumber]
  (r.1.2, r.2)

/-- The variable `rule` of `Insert` when `rule.Marshal()` is called; `rule` is
passed by value, so the assignment of the default number changes the local
copy only. -/
def Chain.Insert.rule (rule : Rule) : Rule :=
  if rule.RuleNumber = "" then { rule with RuleNumber := "1" } else rule

/-- Method `Chain.Insert` of chain.go. -/
def Chain.Insert (env : Env) (c : Chain) (rule : Rule) : Option GoError × List Event :=
  let rule := Chain.Insert.rule rule
  match env.Marshal rule with
  | (_, some err) => (some err, [])
  | (args, none) =>
    let r := runCommand env insertCommand c.Name args
    (r.1.2, r.2)

/-- Method `Chain.Replace` of chain.go. -/
def Chain.Replace (env : Env) (c : Chain) (rule : Rule) : Option GoError × List Event :=
  match env.Marshal rule with
  | (_, some err) => (some err, [])
  | (args, none) =>
    let r := runCommand env replaceCommand c.Name args
    (r.1.2, r.2)

/-- The `for _, line := range lines` loop of `ListRules`; `rules` is the slice
built so far. -/
def Chain.ListRules.loop (env : Env) : List String → List Rule → List Rule × Option GoError
  | [], rules => (rules, none)
  | line :: rest, rules =>
    match env.Unmarshal line with
    | (_, some err) => ([], some err)
    | (rule, none) => Chain.ListRules.loop env rest (rules ++ [rule])

/-- The variable `args` of `ListRules` when `runCommand` is called. -/
def Chain.ListRules.args (c : Chain) : List String :=
  let args := ["-v"]
  if c.Table ≠ "" then args ++ ["-t", c.Table] else args

/-- Method `Chain.ListRules` of chain.go. -/
def Chain.ListRules (env : Env) (c : Chain) : (List Rule × Option GoError) × List Event :=
  match runCommand env listRulesCommand c.Name (Chain.ListRules.args c) with
  | ((_, some err), tr) => (([], some err), tr)
  | ((out, none), tr) => (Chain.ListRules.loop env (Split out '\n') [], tr)

/-- Method `Chain.Flush` of chain.go. -/
def Chain.Flush (env : Env) (c : Chain) : Option GoError × List Event :=
  let r := runCommand env flushCommand c.Name []
  (r.1.2, r.2)

/-- Method `Chain.Zero` of chain.go. -/
def Chain.Zero (env : Env) (c : Chain) (rule : Rule) : Option GoError × List Event :=
  let r := runCommand env zeroCommand c.Name [rule.RuleNumber]
  (r.1.2, r.2)

/-- Method `Chain.NewChain` of chain.go. -/
def Chain.NewChain (env : Env) (c : Chain) : Option GoError × List Event :=
  let r := runCommand env newChainCommand c.Name []
  (r.1.2, r.2)

/-- Method `Chain.DeleteChain` of chain.go. -/
def Chain.DeleteChain (env : Env) (c : Chain) : Option GoError × List Event :=
  let r := runCommand env deleteChainCommand c.Name []
  (r.1.2, r.2)

/-- Method `Chain.Policy` of chain.go. -/
def Chain.Policy (env : Env) (c : Chain) (policy : Policy) : Option GoError × List Event :=
  let r := runCommand env policyCommand c.Name [policy.Target]
  (r.1.2, r.2)

/-- Method `Chain.RenameChain` of chain.go. -/
def Chain.RenameChain (env : Env) (c : Chain) (name : String) : Option GoError × List Event :=
  let r := runCommand env renameChainCommand c.Name [name]
  (r.1.2, r.2)

/-- Method `Chain.List` of chain.go. -/
def Chain.List (env : Env) (c : Chain) : (String × Option GoError) × List Event :=
  match runCommand env listCommand c.Name ["-v"] with
  | ((_, some err), tr) => (("", some err), tr)
  | ((out, none), tr) => ((out, none), tr)

/-! ## Concrete environments used to evaluate the code -/

/-- A host on which the control program is found at `/sbin/iptables`, every
child process starts and exits with status 0, writing `stdout` and `stderr`. -/
def hostWriting (stdout stderr : String) : Env where
  iptablesCommand := "iptables"
  LookPath := fun _ => ("/sbin/iptables", none)
  run := fun _ _ => { start := none, wait := none, stdout := stdout, stderr := stderr }
  Marshal := fun r => (r.RuleNumber :: r.Matches ++ ["-j", r.Target], none)
  Unmarshal := fun line => ({ Matches := [line], Target := "", RuleNumber := "" }, none)

/-- The host `hostWriting stdout ""` with a stricter `Unmarshal`, which accepts
only the lines that start with `-A`. -/
def strictHost (stdout : String) : Env :=
  { hostWriting stdout "" with
    Unmarshal := fun line =>
      if HasPrefix line "-A" then ({ Matches := Fields line, Target := "", RuleNumber := "" }, none)
      else ({ Matches := [], Target := "", RuleNumber := "" }, some ⟨"bad rule: " ++ line⟩) }

/-- The host `hostWriting "" ""` with a `Marshal` that rejects a rule without
a target. -/
def pickyHost : Env :=
  { hostWriting "" "" with
    Marshal := fun r =>
      if r.Target = "" then ([], some ⟨"rule has no target"⟩)
      else (r.RuleNumber :: r.Matches ++ ["-j", r.Target], none) }

/-! ## Vocabulary of the statements -/

/-- The argument vectors of the child processes started in a trace, in order. -/
def spawned : List Event → List (List String)
  | [] => []
  | Event.start _ args :: tr => args :: spawned tr
  | _ :: tr => spawned tr

/-- How many times the control program was looked up in a trace; `runCommand`
looks it up first thing, once per call. -/
def lookups : List Event → Nat
  | [] => 0
  | Event.lookPath _ :: tr => lookups tr + 1
  | _ :: tr => lookups tr

/-- A chain declaration line of the `-S` output: it starts with `-P` or `-N`. -/
def isDeclaration (line : String) : Bool :=
  HasPrefix line "-P" || HasPrefix line "-N"

/-- The lines of a text: the pieces between its newlines, without the empty
piece that follows a final newline. -/
def textLines (out : String) : List String :=
  if (Split out '\n').getLast? = some "" then (Split out '\n').dropLast else Split out '\n'

/-- The longest leading run of declaration lines of a text. -/
def declarationLines (out : String) : List String :=
  (textLines out).takeWhile isDeclaration

/-- The chain a declaration line stands for: its second field, in table `t`. -/
def chainOfLine (t : Table) (line : String) : Chain :=
  { Name := (Fields line).getD 1 "", Table := t, Options := [], Target := "" }

/-- The error and the trace of a `runCommand` call whose output is dropped
(`_, err = runCommand(...)`). -/
def errorOnly (r : (String × Option GoError) × List Event) : Option GoError × List Event :=
  (r.1.2, r.2)

/-- The child process `runCommand` starts once the control program is found:
the process at the path answered by `LookPath`, with the vector `cmdArgs`. -/
def invocation (env : Env) (cmd : command) (obj : String) (args : List String) : Proc :=
  env.run (env.LookPath env.iptablesCommand).1
    ([(env.LookPath env.iptablesCommand).1, cmd, obj] ++ args)

/-! ## Lemmas -/

theorem Split.scan_ne_nil (sep : Char) (cs cur : List Char) : Split.scan sep cs cur ≠ [] := by
  induction cs generalizing cur with
  | nil => simp [Split.scan]
  | cons c cs ih =>
    unfold Split.scan
    split
    · simp
    · exact ih _

theorem Split.scan_join (sep : Char) (cs cur : List Char) :
    List.intercalate [sep] ((Split.scan sep cs cur).map String.data) = cur ++ cs := by
  induction cs generalizing cur with
  | nil => simp [Split.scan, List.intercalate]
  | cons c cs ih =>
    unfold Split.scan
    split
    · rename_i h
      subst h
      have hne := Split.scan_ne_nil c cs []
      have ih0 := ih []
      rcases hs : Split.scan c cs [] with _ | ⟨y, ys⟩
      · exact absurd hs hne
      · rw [hs] at ih0
        simp only [List.intercalate, List.map_cons, List.intersperse] at ih0 ⊢
        simp only [List.flatten_cons, List.nil_append] at ih0 ⊢
        rw [ih0]
        simp
    · rw [ih]; simp

theorem Split.scan_no_sep (sep : Char) (cs cur : List Char) (hcur : sep ∉ cur) :
    ∀ piece ∈ Split.scan sep cs cur, sep ∉ piece.data := by
  induction cs generalizing cur with
  | nil => simp [Split.scan, hcur]
  | cons c cs ih =>
    unfold Split.scan
    split
    · intro piece hp
      rcases List.mem_cons.mp hp with rfl | hp
      · exact hcur
      · exact ih [] (by simp) piece hp
    · rename_i h
      apply ih
      simp [hcur]
      exact fun h' => h h'.symm

/-- The pieces of `Split` joined by the separator give the text back. -/
theorem Split_join (s : String) (sep : Char) :
    List.intercalate [sep] ((Split s sep).map String.data) = s.data := by
  simpa [Split] using Split.scan_join sep s.data []

/-- No piece of `Split` contains the separator. -/
theorem Split_no_sep (s : String) (sep : Char) : ∀ piece ∈ Split s sep, sep ∉ piece.data :=
  Split.scan_no_sep sep s.data [] (by simp)

theorem ListChains.loop_eq (t : Table) (rules : List String) (chains : List Chain)
    (h : ∀ line ∈ rules.takeWhile isDeclaration, 2 ≤ (Fields line).length) :
    ListChains.loop t rules chains
      = Outcome.returned (chains ++ (rules.takeWhile isDeclaration).map (chainOfLine t)) := by
  induction rules generalizing chains with
  | nil => simp [ListChains.loop]
  | cons val rest ih =>
    by_cases hd : isDeclaration val = true
    · have hd2 : (HasPrefix val "-P" || HasPrefix val "-N") = true := hd
      have hlen : 2 ≤ (Fields val).length := h val (by simp [List.takeWhile, hd])
      have hget : (Fields val)[1]? = some ((Fields val).getD 1 "") := by
        rw [List.getD_eq_getElem?_getD, List.getElem?_eq_getElem (by omega)]
        rfl
      have hrest : ∀ line ∈ rest.takeWhile isDeclaration, 2 ≤ (Fields line).length := by
        intro line hl
        exact h line (by simp [List.takeWhile, hd, hl])
      rw [ListChains.loop, if_pos hd2]
      simp only [hget]
      rw [ih _ hrest]
      simp [List.takeWhile, hd, chainOfLine]
    · have hd2 : ¬ (HasPrefix val "-P" || HasPrefix val "-N") = true := hd
      rw [ListChains.loop, if_neg hd2]
      simp [List.takeWhile, hd]

theorem ListChains_returns (env : Env) (t : Table) (out : String) (tr : List Event)
    (hrun : runCommand env listChainsCommand t ["-S"] = ((out, none), tr))
    (h : ∀ line ∈ declarationLines out, 2 ≤ (Fields line).length) :
    Table.ListChains env t
      = (Outcome.returned ((declarationLines out).map (chainOfLine t), none), tr) := by
  have hl := ListChains.loop_eq t (textLines out) [] h
  unfold textLines at hl
  unfold Table.ListChains
  rw [hrun]
  simp only [hl]
  simp [declarationLines, textLines]

theorem String.length_ne_zero_iff (s : String) : s.length ≠ 0 ↔ s ≠ "" := by
  have h : s.length = 0 ↔ s = "" := by
    constructor
    · intro h0
      apply String.ext
      exact List.length_eq_zero.mp h0
    · intro hs
      rw [hs]
      rfl
  exact not_congr h

theorem runCommand_lookups (env : Env) (cmd : command) (obj : String) (args : List String) :
    lookups (runCommand env cmd obj args).2 = 1 := by
  unfold runCommand
  split
  · rfl
  · dsimp only
    split
    · rfl
    · split
      · rfl
      · split <;> rfl

theorem ListRules.loop_fails (env : Env) (pre : List String) (l : String)
    (post : List String) (e : GoError) (rules : List Rule)
    (hpre : ∀ x ∈ pre, (env.Unmarshal x).2 = none) (hl : (env.Unmarshal l).2 = some e) :
    Chain.ListRules.loop env (pre ++ l :: post) rules = ([], some e) := by
  induction pre generalizing rules with
  | nil =>
    rcases hu : env.Unmarshal l with ⟨rule, err⟩
    rw [hu] at hl
    simp only at hl
    subst hl
    simp [Chain.ListRules.loop, hu]
  | cons x xs ih =>
    rcases hu : env.Unmarshal x with ⟨rule, err⟩
    have hx : (env.Unmarshal x).2 = none := hpre x (by simp)
    rw [hu] at hx
    simp only at hx
    subst hx
    have hxs : ∀ y ∈ xs, (env.Unmarshal y).2 = none := fun y hy => hpre y (by simp [hy])
    simp only [List.cons_append, Chain.ListRules.loop, hu]
    exact ih _ hxs

theorem first_failing_line (env : Env) (lines : List String)
    (h : ∃ l ∈ lines, (env.Unmarshal l).2 ≠ none) :
    ∃ pre l post e, lines = pre ++ l :: post ∧
      (∀ x ∈ pre, (env.Unmarshal x).2 = none) ∧ (env.Unmarshal l).2 = some e := by
  induction lines with
  | nil => simp at h
  | cons x xs ih =>
    rcases hx : (env.Unmarshal x).2 with _ | e
    · have h2 : ∃ l ∈ xs, (env.Unmarshal l).2 ≠ none := by
        rcases h with ⟨l, hl, hne⟩
        rcases List.mem_cons.mp hl with rfl | hl
        · exact absurd hx hne
        · exact ⟨l, hl, hne⟩
      rcases ih h2 with ⟨pre, l, post, e, heq, hpre, hl⟩
      refine ⟨x :: pre, l, post, e, by simp [heq], ?_, hl⟩
      intro y hy
      rcases List.mem_cons.mp hy with rfl | hy
      · exact hx
      · exact hpre y hy
    · exact ⟨[], x, xs, e, rfl, by simp, hx⟩

theorem runCommand_spawned (env : Env) (cmd : command) (obj : String) (args : List String)
    (path : String) (hpath : env.LookPath env.iptablesCommand = (path, none)) :
    spawned (runCommand env cmd obj args).2 = [[path, cmd, obj] ++ args] := by
  unfold runCommand
  rw [hpath]
  dsimp only
  split
  · rfl
  · split
    · rfl
    · split <;> rfl

theorem ListRules_trace (env : Env) (c : Chain) :
    (Chain.ListRules env c).2
      = (runCommand env listRulesCommand c.Name (Chain.ListRules.args c)).2 := by
  unfold Chain.ListRules
  split <;> simp_all

theorem ListRules.loop_error_no_rules (env : Env) (lines : List String) (rules : List Rule)
    (h : (Chain.ListRules.loop env lines rules).2 ≠ none) :
    (Chain.ListRules.loop env lines rules).1 = [] := by
  induction lines generalizing rules with
  | nil => simp [Chain.ListRules.loop] at h
  | cons line rest ih =>
    rcases hu : env.Unmarshal line with ⟨rule, _ | err⟩
    · simp only [Chain.ListRules.loop, hu] at h ⊢
      exact ih _ h
    · simp [Chain.ListRules.loop, hu]

theorem ListRules_error_no_rules (env : Env) (c : Chain)
    (h : (Chain.ListRules env c).1.2 ≠ none) : (Chain.ListRules env c).1.1 = [] := by
  unfold Chain.ListRules at h ⊢
  rcases hr : runCommand env listRulesCommand c.Name (Chain.ListRules.args c)
    with ⟨⟨out, _ | err⟩, tr⟩
  · simp only [hr] at h ⊢
    exact ListRules.loop_error_no_rules env _ _ h
  · simp [hr]

/-! ## Claims -/

/-- C1 (amended): when the control program answers `out`, and every line of the
longest leading run of lines of `out` that start with `-P` or `-N` has at least
two whitespace-delimited fields, `ListChains` returns, in order, exactly one
Chain per line of that run, with Name the second field of the line and Table
`t`, and nothing for any later line; for the text of the spec the result is
exactly the chains INPUT and LOG. -/
theorem ListChains_leading_declarations (env : Env) (t : Table) (out : String)
    (tr : List Event)
    (hrun : runCommand env listChainsCommand t ["-S"] = ((out, none), tr)) :
    ((∀ line ∈ declarationLines out, 2 ≤ (Fields line).length) →
      Table.ListChains env t
        = (Outcome.returned ((declarationLines out).map (chainOfLine t), none), tr)) ∧
    (out = "-P INPUT ACCEPT\n-N LOG\n-A INPUT -j LOG\n-A LOG -j RETURN\n" →
      Table.ListChains env t
        = (Outcome.returned
            ([{ Name := "INPUT", Table := t, Options := [], Target := "" },
              { Name := "LOG", Table := t, Options := [], Target := "" }], none), tr)) := by
  refine ⟨ListChains_returns env t out tr hrun, ?_⟩
  intro hout
  subst hout
  have hd : declarationLines "-P INPUT ACCEPT\n-N LOG\n-A INPUT -j LOG\n-A LOG -j RETURN\n"
      = ["-P INPUT ACCEPT", "-N LOG"] := by decide
  have h1 : (Fields "-P INPUT ACCEPT").getD 1 "" = "INPUT" := by decide
  have h2 : (Fields "-N LOG").getD 1 "" = "LOG" := by decide
  rw [ListChains_returns env t _ tr hrun (by decide), hd]
  simp only [List.map_cons, List.map_nil, chainOfLine, h1, h2]

/-- Witness of C1: the text of the spec, answered for table `nat`. -/
theorem ListChains_leading_declarations_witness :
    (∀ line ∈ declarationLines "-P INPUT ACCEPT\n-N LOG\n-A INPUT -j LOG\n-A LOG -j RETURN\n",
        2 ≤ (Fields line).length) ∧
    Table.ListChains
        (hostWriting "-P INPUT ACCEPT\n-N LOG\n-A INPUT -j LOG\n-A LOG -j RETURN\n" "") "nat"
      = (Outcome.returned
          ([{ Name := "INPUT", Table := "nat", Options := [], Target := "" },
            { Name := "LOG", Table := "nat", Options := [], Target := "" }], none),
         [Event.lookPath "iptables",
          Event.start "/sbin/iptables" ["/sbin/iptables", "-t", "nat", "-S"],
          Event.wait]) :=
  ⟨by decide,
   (ListChains_leading_declarations
      (hostWriting "-P INPUT ACCEPT\n-N LOG\n-A INPUT -j LOG\n-A LOG -j RETURN\n" "") "nat"
      "-P INPUT ACCEPT\n-N LOG\n-A INPUT -j LOG\n-A LOG -j RETURN\n"
      [Event.lookPath "iptables",
       Event.start "/sbin/iptables" ["/sbin/iptables", "-t", "nat", "-S"],
       Event.wait]
      (by decide)).2 rfl⟩

/-- C1 as stated fails: for the text `-P INPUT ACCEPT`, `-N`, `-A INPUT -j LOG`
the leading run has two lines, and `ListChains` returns no chain for them: the
second line has no second field and the call panics. -/
theorem ListChains_not_every_text :
    declarationLines "-P INPUT ACCEPT\n-N\n-A INPUT -j LOG\n" = ["-P INPUT ACCEPT", "-N"] ∧
    (Table.ListChains (hostWriting "-P INPUT ACCEPT\n-N\n-A INPUT -j LOG\n" "") "filter").1
      = Outcome.panicked "index out of range [1]" ∧
    ¬ ∃ chains err,
      (Table.ListChains (hostWriting "-P INPUT ACCEPT\n-N\n-A INPUT -j LOG\n" "") "filter").1
        = Outcome.returned (chains, err) := by
  have h : (Table.ListChains (hostWriting "-P INPUT ACCEPT\n-N\n-A INPUT -j LOG\n" "")
      "filter").1 = Outcome.panicked "index out of range [1]" := by decide
  refine ⟨by decide, h, ?_⟩
  rintro ⟨chains, err, hret⟩
  rw [h] at hret
  cases hret

/-- C2: `runCommand` returns a nil error exactly when the lookup, the start and
the wait succeed and stderr is empty, and then returns the captured stdout
unchanged; when the three succeed and stderr is not empty the result is an
error whose message is the stderr text. -/
theorem runCommand_succeeds_iff (env : Env) (cmd : command) (obj : String)
    (args : List String) :
    ((runCommand env cmd obj args).1.2 = none ↔
      (env.LookPath env.iptablesCommand).2 = none ∧
      (invocation env cmd obj args).start = none ∧
      (invocation env cmd obj args).wait = none ∧
      (invocation env cmd obj args).stderr = "") ∧
    ((runCommand env cmd obj args).1.2 = none →
      (runCommand env cmd obj args).1.1 = (invocation env cmd obj args).stdout) ∧
    ((env.LookPath env.iptablesCommand).2 = none →
      (invocation env cmd obj args).start = none →
      (invocation env cmd obj args).wait = none →
      (invocation env cmd obj args).stderr ≠ "" →
      (runCommand env cmd obj args).1
        = ("", some ⟨(invocation env cmd obj args).stderr⟩)) := by
  unfold runCommand invocation
  rcases hL : env.LookPath env.iptablesCommand with ⟨path, _ | lerr⟩
  · dsimp only
    generalize env.run path ([path, cmd, obj] ++ args) = p
    rcases p with ⟨_ | serr, _ | werr, so, se⟩
    · by_cases he : se = ""
      · have hz : ¬ se.length ≠ 0 := by
          rw [String.length_ne_zero_iff]; exact not_not.mpr he
        simp only [if_neg hz]
        simp [he]
      · have hz : se.length ≠ 0 := by
          rw [String.length_ne_zero_iff]; exact he
        simp only [if_pos hz]
        simp [he]
    · simp
    · simp
    · simp
  · simp

/-- Witness of C2: exit status 0 with the stderr text of the spec. -/
theorem runCommand_succeeds_iff_witness :
    (runCommand (hostWriting "" "iptables: Chain already exists.") "-N" "LOG" []).1
      = ("", some ⟨"iptables: Chain already exists."⟩) :=
  (runCommand_succeeds_iff (hostWriting "" "iptables: Chain already exists.") "-N" "LOG" []).2.2
    rfl rfl rfl (by decide)

/-- C8 (the code at the failing input): for the output `-N` followed by a
newline the declaration line has one field only, and `ListChains` panics on
the index instead of returning an error. -/
theorem ListChains_panics_on_short_declaration :
    Fields "-N" = ["-N"] ∧
    (Table.ListChains (hostWriting "-N\n" "") "filter").1
      = Outcome.panicked "index out of range [1]" := by
  constructor <;> decide

/-- C3 (the code at the failing input): for a Chain whose Name is empty the
vectors of Flush and List carry the empty string in the chain-name position. -/
theorem Flush_List_pass_empty_name :
    spawned (Chain.Flush (hostWriting "" "")
        { Name := "", Table := "", Options := [], Target := "" }).2
      = [["/sbin/iptables", "-F", ""]] ∧
    spawned (Chain.List (hostWriting "" "")
        { Name := "", Table := "", Options := [], Target := "" }).2
      = [["/sbin/iptables", "-L", "", "-v"]] := by
  constructor <;> decide

/-- C4 (amended): once the control program is found at `path`, the vector of
ListRules is path, `-S`, the chain name, `-v` when the table is empty, and
path, `-S`, the chain name, `-v`, `-t`, the table when it is not: the table flag
is present exactly when the table is set, and it follows `-v`. -/
theorem ListRules_vector (env : Env) (c : Chain) (path : String)
    (hpath : env.LookPath env.iptablesCommand = (path, none)) :
    (c.Table = "" → spawned (Chain.ListRules env c).2 = [[path, "-S", c.Name, "-v"]]) ∧
    (c.Table ≠ "" →
      spawned (Chain.ListRules env c).2 = [[path, "-S", c.Name, "-v", "-t", c.Table]]) := by
  rw [ListRules_trace, runCommand_spawned env _ _ _ path hpath]
  constructor
  · intro h
    simp [Chain.ListRules.args, h, listRulesCommand]
  · intro h
    simp [Chain.ListRules.args, h, listRulesCommand]

/-- Witness of C4: chain INPUT of table nat, and chain INPUT with no table. -/
theorem ListRules_vector_witness :
    spawned (Chain.ListRules (hostWriting "" "")
        { Name := "INPUT", Table := "nat", Options := [], Target := "" }).2
      = [["/sbin/iptables", "-S", "INPUT", "-v", "-t", "nat"]] ∧
    spawned (Chain.ListRules (hostWriting "" "")
        { Name := "INPUT", Table := "", Options := [], Target := "" }).2
      = [["/sbin/iptables", "-S", "INPUT", "-v"]] :=
  ⟨(ListRules_vector (hostWriting "" "")
      { Name := "INPUT", Table := "nat", Options := [], Target := "" } "/sbin/iptables" rfl).2
      (by decide),
   (ListRules_vector (hostWriting "" "")
      { Name := "INPUT", Table := "", Options := [], Target := "" } "/sbin/iptables" rfl).1
      rfl⟩

/-- C4 as stated fails: for chain INPUT of table nat the vector of ListRules
has `-v` before `-t nat`, not after it. -/
theorem ListRules_verbose_precedes_table :
    spawned (Chain.ListRules (hostWriting "" "")
        { Name := "INPUT", Table := "nat", Options := [], Target := "" }).2
      ≠ [["/sbin/iptables", "-S", "INPUT", "-t", "nat", "-v"]] := by
  decide

/-- C5: a rule whose RuleNumber is empty is inserted exactly as the
same rule with RuleNumber 1 (same result, same trace, so same argument vector),
whatever Marshal is; a rule whose RuleNumber is not empty is handed to Marshal
unchanged. -/
theorem Insert_default_rule_number (env : Env) (c : Chain) (r : Rule) :
    (r.RuleNumber = "" → Chain.Insert env c r = Chain.Insert env c { r with RuleNumber := "1" }) ∧
    (r.RuleNumber ≠ "" →
      Chain.Insert.rule r = r ∧
      Chain.Insert env c r =
        match env.Marshal r with
        | (_, some err) => (some err, [])
        | (args, none) => errorOnly (runCommand env insertCommand c.Name args)) := by
  constructor
  · intro h
    have h1 : ¬ ("1" : String) = "" := by decide
    simp [Chain.Insert, Chain.Insert.rule, h, h1]
  · intro h
    have hr : Chain.Insert.rule r = r := by simp [Chain.Insert.rule, h]
    refine ⟨hr, ?_⟩
    unfold Chain.Insert
    rw [hr]
    rfl

/-- Witness of C5: an unnumbered rule and a rule numbered 3, inserted in INPUT. -/
theorem Insert_default_rule_number_witness :
    Chain.Insert (hostWriting "" "") { Name := "INPUT", Table := "", Options := [], Target := "" }
        { Matches := ["-p", "tcp"], Target := "DROP", RuleNumber := "" }
      = Chain.Insert (hostWriting "" "")
          { Name := "INPUT", Table := "", Options := [], Target := "" }
          { Matches := ["-p", "tcp"], Target := "DROP", RuleNumber := "1" } ∧
    Chain.Insert.rule { Matches := ["-p", "tcp"], Target := "DROP", RuleNumber := "3" }
      = { Matches := ["-p", "tcp"], Target := "DROP", RuleNumber := "3" } :=
  ⟨(Insert_default_rule_number (hostWriting "" "")
      { Name := "INPUT", Table := "", Options := [], Target := "" }
      { Matches := ["-p", "tcp"], Target := "DROP", RuleNumber := "" }).1 rfl,
   ((Insert_default_rule_number (hostWriting "" "")
      { Name := "INPUT", Table := "", Options := [], Target := "" }
      { Matches := ["-p", "tcp"], Target := "DROP", RuleNumber := "3" }).2 (by decide)).1⟩

/-- C6: when the control program answers `out` and Unmarshal fails on at least
one line of `out`, ListRules returns the error of the first failing line and
no rules at all, whatever the other lines are; and whenever ListRules returns
an error it returns no rules. -/
theorem ListRules_fails_closed (env : Env) (c : Chain) (out : String) (tr : List Event)
    (hrun : runCommand env listRulesCommand c.Name (Chain.ListRules.args c) = ((out, none), tr))
    (hfail : ∃ l ∈ Split out '\n', (env.Unmarshal l).2 ≠ none) :
    (∃ pre l post e, Split out '\n' = pre ++ l :: post ∧
      (∀ x ∈ pre, (env.Unmarshal x).2 = none) ∧ (env.Unmarshal l).2 = some e ∧
      Chain.ListRules env c = (([], some e), tr)) ∧
    ((Chain.ListRules env c).1.2 ≠ none → (Chain.ListRules env c).1.1 = []) := by
  refine ⟨?_, ListRules_error_no_rules env c⟩
  rcases first_failing_line env _ hfail with ⟨pre, l, post, e, heq, hpre, hl⟩
  refine ⟨pre, l, post, e, heq, hpre, hl, ?_⟩
  unfold Chain.ListRules
  rw [hrun]
  simp only [heq]
  rw [ListRules.loop_fails env pre l post e [] hpre hl]

/-- Witness of C6: three lines, the second of which Unmarshal rejects. -/
theorem ListRules_fails_closed_witness :
    ∃ pre l post e,
      Split "-A INPUT -j ACCEPT\nbogus\n-A INPUT -j DROP" '\n' = pre ++ l :: post ∧
      (∀ x ∈ pre, ((strictHost "-A INPUT -j ACCEPT\nbogus\n-A INPUT -j DROP").Unmarshal x).2
        = none) ∧
      ((strictHost "-A INPUT -j ACCEPT\nbogus\n-A INPUT -j DROP").Unmarshal l).2 = some e ∧
      Chain.ListRules (strictHost "-A INPUT -j ACCEPT\nbogus\n-A INPUT -j DROP")
          { Name := "INPUT", Table := "", Options := [], Target := "" }
        = (([], some e),
           [Event.lookPath "iptables",
            Event.start "/sbin/iptables" ["/sbin/iptables", "-S", "INPUT", "-v"],
            Event.wait]) :=
  (ListRules_fails_closed (strictHost "-A INPUT -j ACCEPT\nbogus\n-A INPUT -j DROP")
    { Name := "INPUT", Table := "", Options := [], Target := "" }
    "-A INPUT -j ACCEPT\nbogus\n-A INPUT -j DROP"
    [Event.lookPath "iptables",
     Event.start "/sbin/iptables" ["/sbin/iptables", "-S", "INPUT", "-v"],
     Event.wait]
    (by decide) ⟨"bogus", by decide, by decide⟩).1

/-- C7 (the code at the failing input): for the output of one rule line ended
by a newline, ListRules hands Unmarshal two lines, the rule line and the empty
line after the newline, and returns two rules; for the empty output it hands
Unmarshal the empty line and returns one rule. -/
theorem ListRules_unmarshals_empty_lines :
    (Chain.ListRules (hostWriting "-A INPUT -j ACCEPT\n" "")
        { Name := "INPUT", Table := "", Options := [], Target := "" }).1
      = ([{ Matches := ["-A INPUT -j ACCEPT"], Target := "", RuleNumber := "" },
          { Matches := [""], Target := "", RuleNumber := "" }], none) ∧
    (Chain.ListRules (hostWriting "" "")
        { Name := "INPUT", Table := "", Options := [], Target := "" }).1
      = ([{ Matches := [""], Target := "", RuleNumber := "" }], none) := by
  constructor <;> decide

/-- C9: in Append, Check, Delete and Replace, when Marshal of the rule returns
an error the operation returns that error and causes no event (no lookup, no
process), and when it returns arguments the operation is one call of
runCommand with them; the same holds for Insert, where the rule handed to
Marshal is the rule after the default number is set. -/
theorem marshal_error_short_circuits (env : Env) (c : Chain) (rule : Rule) :
    (∀ args err, env.Marshal rule = (args, some err) →
      Chain.Append env c rule = (some err, []) ∧ Chain.Check env c rule = (some err, []) ∧
      Chain.Delete env c rule = (some err, []) ∧ Chain.Replace env c rule = (some err, [])) ∧
    (∀ args err, env.Marshal (Chain.Insert.rule rule) = (args, some err) →
      Chain.Insert env c rule = (some err, [])) ∧
    (∀ args, env.Marshal rule = (args, none) →
      Chain.Append env c rule = errorOnly (runCommand env appendCommand c.Name args) ∧
      Chain.Check env c rule = errorOnly (runCommand env checkCommand c.Name args) ∧
      Chain.Delete env c rule = errorOnly (runCommand env deleteCommand c.Name args) ∧
      Chain.Replace env c rule = errorOnly (runCommand env replaceCommand c.Name args) ∧
      lookups (Chain.Append env c rule).2 = 1 ∧ lookups (Chain.Check env c rule).2 = 1 ∧
      lookups (Chain.Delete env c rule).2 = 1 ∧ lookups (Chain.Replace env c rule).2 = 1) ∧
    (∀ args, env.Marshal (Chain.Insert.rule rule) = (args, none) →
      Chain.Insert env c rule = errorOnly (runCommand env insertCommand c.Name args) ∧
      lookups (Chain.Insert env c rule).2 = 1) := by
  refine ⟨?_, ?_, ?_, ?_⟩
  · intro args err h
    simp [Chain.Append, Chain.Check, Chain.Delete, Chain.Replace, h]
  · intro args err h
    simp [Chain.Insert, h]
  · intro args h
    have ha : Chain.Append env c rule = errorOnly (runCommand env appendCommand c.Name args) := by
      simp [Chain.Append, h, errorOnly]
    have hc : Chain.Check env c rule = errorOnly (runCommand env checkCommand c.Name args) := by
      simp [Chain.Check, h, errorOnly]
    have hd : Chain.Delete env c rule = errorOnly (runCommand env deleteCommand c.Name args) := by
      simp [Chain.Delete, h, errorOnly]
    have hr : Chain.Replace env c rule
        = errorOnly (runCommand env replaceCommand c.Name args) := by
      simp [Chain.Replace, h, errorOnly]
    refine ⟨ha, hc, hd, hr, ?_, ?_, ?_, ?_⟩
    · rw [ha]; exact runCommand_lookups env _ _ _
    · rw [hc]; exact runCommand_lookups env _ _ _
    · rw [hd]; exact runCommand_lookups env _ _ _
    · rw [hr]; exact runCommand_lookups env _ _ _
  · intro args h
    have hi : Chain.Insert env c rule = errorOnly (runCommand env insertCommand c.Name args) := by
      simp [Chain.Insert, h, errorOnly]
    exact ⟨hi, by rw [hi]; exact runCommand_lookups env _ _ _⟩

/-- Witness of C9: on a host whose Marshal rejects a rule without a target,
appending and inserting such a rule return that error and cause no event. -/
theorem marshal_error_short_circuits_witness :
    Chain.Append pickyHost { Name := "INPUT", Table := "", Options := [], Target := "" }
        { Matches := ["-p", "tcp"], Target := "", RuleNumber := "" }
      = (some ⟨"rule has no target"⟩, []) ∧
    Chain.Insert pickyHost { Name := "INPUT", Table := "", Options := [], Target := "" }
        { Matches := ["-p", "tcp"], Target := "", RuleNumber := "" }
      = (some ⟨"rule has no target"⟩, []) ∧
    lookups (Chain.Append pickyHost { Name := "INPUT", Table := "", Options := [], Target := "" }
        { Matches := ["-p", "tcp"], Target := "DROP", RuleNumber := "" }).2 = 1 :=
  ⟨((marshal_error_short_circuits pickyHost
        { Name := "INPUT", Table := "", Options := [], Target := "" }
        { Matches := ["-p", "tcp"], Target := "", RuleNumber := "" }).1
      [] ⟨"rule has no target"⟩ rfl).1,
   (marshal_error_short_circuits pickyHost
        { Name := "INPUT", Table := "", Options := [], Target := "" }
        { Matches := ["-p", "tcp"], Target := "", RuleNumber := "" }).2.1
      [] ⟨"rule has no target"⟩ rfl,
   ((marshal_error_short_circuits pickyHost
        { Name := "INPUT", Table := "", Options := [], Target := "" }
        { Matches := ["-p", "tcp"], Target := "DROP", RuleNumber := "" }).2.2.1
      ["", "-p", "tcp", "-j", "DROP"] rfl).2.2.2.2.1⟩

/-- C10: two Chains with the same Name give the same result and the same
trace, so the same argument vector, in every operation other than ListRules,
for the same rule, policy or new name, whatever their Table, Options and
Target are; in ListRules they do so when their Table is the same as well. -/
theorem operations_depend_on_name_only (env : Env) (c₁ c₂ : Chain) (rule : Rule)
    (policy : Policy) (name : String) (hname : c₁.Name = c₂.Name) :
    Chain.Append env c₁ rule = Chain.Append env c₂ rule ∧
    Chain.Check env c₁ rule = Chain.Check env c₂ rule ∧
    Chain.Delete env c₁ rule = Chain.Delete env c₂ rule ∧
    Chain.DeleteByRuleNum env c₁ rule = Chain.DeleteByRuleNum env c₂ rule ∧
    Chain.Insert env c₁ rule = Chain.Insert env c₂ rule ∧
    Chain.Replace env c₁ rule = Chain.Replace env c₂ rule ∧
    Chain.List env c₁ = Chain.List env c₂ ∧
    Chain.Flush env c₁ = Chain.Flush env c₂ ∧
    Chain.Zero env c₁ rule = Chain.Zero env c₂ rule ∧
    Chain.NewChain env c₁ = Chain.NewChain env c₂ ∧
    Chain.DeleteChain env c₁ = Chain.DeleteChain env c₂ ∧
    Chain.Policy env c₁ policy = Chain.Policy env c₂ policy ∧
    Chain.RenameChain env c₁ name = Chain.RenameChain env c₂ name ∧
    (c₁.Table = c₂.Table → Chain.ListRules env c₁ = Chain.ListRules env c₂) := by
  refine ⟨?_, ?_, ?_, ?_, ?_, ?_, ?_, ?_, ?_, ?_, ?_, ?_, ?_, ?_⟩
  · simp only [Chain.Append, hname]
  · simp only [Chain.Check, hname]
  · simp only [Chain.Delete, hname]
  · simp only [Chain.DeleteByRuleNum, hname]
  · simp only [Chain.Insert, hname]
  · simp only [Chain.Replace, hname]
  · simp only [Chain.List, hname]
  · simp only [Chain.Flush, hname]
  · simp only [Chain.Zero, hname]
  · simp only [Chain.NewChain, hname]
  · simp only [Chain.DeleteChain, hname]
  · simp only [Chain.Policy, hname]
  · simp only [Chain.RenameChain, hname]
  · intro htable
    simp only [Chain.ListRules, Chain.ListRules.args, hname, htable]

/-- Witness of C10: chain INPUT of table nat with option `-n` and target DROP
against chain INPUT with nothing else set. -/
theorem operations_depend_on_name_only_witness :
    Chain.Flush (hostWriting "" "")
        { Name := "INPUT", Table := "nat", Options := ["-n"], Target := "DROP" }
      = Chain.Flush (hostWriting "" "")
        { Name := "INPUT", Table := "", Options := [], Target := "" } ∧
    Chain.Append (hostWriting "" "")
        { Name := "INPUT", Table := "nat", Options := ["-n"], Target := "DROP" }
        { Matches := ["-p", "tcp"], Target := "DROP", RuleNumber := "" }
      = Chain.Append (hostWriting "" "")
        { Name := "INPUT", Table := "", Options := [], Target := "" }
        { Matches := ["-p", "tcp"], Target := "DROP", RuleNumber := "" } :=
  ⟨(operations_depend_on_name_only (hostWriting "" "")
      { Name := "INPUT", Table := "nat", Options := ["-n"], Target := "DROP" }
      { Name := "INPUT", Table := "", Options := [], Target := "" }
      { Matches := ["-p", "tcp"], Target := "DROP", RuleNumber := "" }
      { Chain := "INPUT", Target := "DROP" } "OUTPUT" rfl).2.2.2.2.2.2.2.1,
   (operations_depend_on_name_only (hostWriting "" "")
      { Name := "INPUT", Table := "nat", Options := ["-n"], Target := "DROP" }
      { Name := "INPUT", Table := "", Options := [], Target := "" }
      { Matches := ["-p", "tcp"], Target := "DROP", RuleNumber := "" }
      { Chain := "INPUT", Target := "DROP" } "OUTPUT" rfl).1⟩

end goiptables
